import Mathlib

/-!
# Double pendulum simulation (`pendulum project.cpp`)

A shallow embedding of the simulation: the per-rod state, the coupled physics
step `DoublePendulum::updatePhysics`, the stored render geometry, and the
fixed-timestep accumulator loop of `main`.

The program computes in `float`.  The number type is a parameter `K` of the
embedding and the `<cmath>` functions the program calls are a record
`CMath K`, so every definition is executable once `K` and the record are.  The
acceleration formulas and the constructors ask of `K` only the operations and
literals they use, so that they can be read in two ways:

* exactly, over `ℝ` with `Real.sin`, `Real.cos`, `Real.sqrt` and `Real.pi` (or
  over any ordered field where no `<cmath>` function matters);
* in the program's own binary32 arithmetic, over the type `F32` below.

The class `Vector2` (lines 12-51) is used nowhere in the program and is left
out.  Of the SFML shapes only the fields the program sets or reads are kept,
with SFML's default values for a freshly constructed shape.
-/

namespace PendulumProject

/-! ## The number type `float`

IEEE 754 binary32 with round-to-nearest-even, signed zeros, subnormals,
infinities and one NaN. -/

/-- A binary32 value.  `fin neg m e` is the finite number `(-1)^neg * m * 2^e`,
kept in canonical form: `m` is odd, or `m = 0` and `e = 0` (a signed zero). -/
inductive F32 where
  | fin (neg : Bool) (m : Nat) (e : Int)
  | inf (neg : Bool)
  | nan
deriving DecidableEq, Repr

/-- Halve `m` while it is even, at most `fuel` times, counting into `e`. -/
def F32.strip : Nat → Nat → Int → Nat × Int
  | 0, m, e => (m, e)
  | fuel + 1, m, e => if m % 2 = 0 then F32.strip fuel (m / 2) (e + 1) else (m, e)

/-- The position of the leading bit of `m`, `⌊log₂ m⌋` for `0 < m ≤ fuel`. -/
def F32.log2 : Nat → Nat → Nat
  | 0, _ => 0
  | fuel + 1, m => if m < 2 then 0 else F32.log2 fuel (m / 2) + 1

/-- The canonical form of `(-1)^neg * m * 2^e` for a significand `m ≤ 2^24`. -/
def F32.canon (neg : Bool) (m : Nat) (e : Int) : F32 :=
  if m = 0 then F32.fin neg 0 0 else F32.fin neg (F32.strip 24 m e).1 (F32.strip 24 m e).2

/-- Round the exact value `(-1)^neg * m * 2^e` to binary32, to nearest, ties to
even: the quantum is `2^q` with `q` 23 below the leading bit and at least
`-149`; a result of `2^128` or more is an infinity. -/
def F32.round (neg : Bool) (m : Nat) (e : Int) : F32 :=
  if m = 0 then F32.fin neg 0 0
  else
    let q : Int := max (e + F32.log2 m m - 23) (-149)
    let mant : Nat :=
      if q ≤ e then m * 2 ^ (e - q).toNat
      else
        let sh := (q - e).toNat
        let hi := m / 2 ^ sh
        let lo := m % 2 ^ sh
        let half := 2 ^ (sh - 1)
        if half < lo ∨ (lo = half ∧ hi % 2 = 1) then hi + 1 else hi
    if 104 ≤ q ∧ 2 ^ 24 ≤ mant * 2 ^ (q - 104).toNat then F32.inf neg
    else F32.canon neg mant q

/-- The `float` nearest to an integer literal. -/
def F32.ofNat (n : Nat) : F32 := F32.round false n 0

/-- Unary minus: the sign bit is flipped. -/
def F32.neg : F32 → F32
  | F32.fin s m e => F32.fin (!s) m e
  | F32.inf s => F32.inf (!s)
  | F32.nan => F32.nan

/-- Multiplication: the exact product rounded; `0 * inf` is NaN. -/
def F32.mul : F32 → F32 → F32
  | F32.fin s1 m1 e1, F32.fin s2 m2 e2 => F32.round (xor s1 s2) (m1 * m2) (e1 + e2)
  | F32.fin s1 m1 _, F32.inf s2 => if m1 = 0 then F32.nan else F32.inf (xor s1 s2)
  | F32.inf s1, F32.fin s2 m2 _ => if m2 = 0 then F32.nan else F32.inf (xor s1 s2)
  | F32.inf s1, F32.inf s2 => F32.inf (xor s1 s2)
  | _, _ => F32.nan

/-- The integer `(-1)^s * m`. -/
def F32.signed (s : Bool) (m : Nat) : Int := if s then -(m : Int) else (m : Int)

/-- Addition: the exact sum rounded; an exact zero sum is `+0` unless both
terms are negative; `inf + (-inf)` is NaN. -/
def F32.add : F32 → F32 → F32
  | F32.fin s1 m1 e1, F32.fin s2 m2 e2 =>
    let e := min e1 e2
    let sum : Int :=
      F32.signed s1 (m1 * 2 ^ (e1 - e).toNat) + F32.signed s2 (m2 * 2 ^ (e2 - e).toNat)
    if sum = 0 then F32.fin (s1 && s2) 0 0 else F32.round (decide (sum < 0)) sum.natAbs e
  | F32.fin _ _ _, F32.inf s2 => F32.inf s2
  | F32.inf s1, F32.fin _ _ _ => F32.inf s1
  | F32.inf s1, F32.inf s2 => if s1 = s2 then F32.inf s1 else F32.nan
  | _, _ => F32.nan

/-- Subtraction: `a + (-b)`. -/
def F32.sub (a b : F32) : F32 := F32.add a (F32.neg b)

/-- Division: the exact quotient rounded (64 quotient bits and a sticky bit are
kept); `x / 0` is an infinity for `x ≠ 0`, and `0 / 0`, `inf / inf` are NaN. -/
def F32.div : F32 → F32 → F32
  | F32.fin s1 m1 e1, F32.fin s2 m2 e2 =>
    if m2 = 0 then (if m1 = 0 then F32.nan else F32.inf (xor s1 s2))
    else
      let n := m1 * 2 ^ 64
      F32.round (xor s1 s2) (2 * (n / m2) + (if n % m2 = 0 then 0 else 1)) (e1 - e2 - 65)
  | F32.fin s1 _ _, F32.inf s2 => F32.fin (xor s1 s2) 0 0
  | F32.inf s1, F32.fin s2 _ _ => F32.inf (xor s1 s2)
  | _, _ => F32.nan

/-- The comparison `a < b`; false when either side is NaN. -/
def F32.lt : F32 → F32 → Bool
  | F32.fin s1 m1 e1, F32.fin s2 m2 e2 =>
    let e := min e1 e2
    decide (F32.signed s1 (m1 * 2 ^ (e1 - e).toNat) < F32.signed s2 (m2 * 2 ^ (e2 - e).toNat))
  | F32.fin _ _ _, F32.inf s2 => !s2
  | F32.inf s1, F32.fin _ _ _ => s1
  | F32.inf s1, F32.inf s2 => s1 && !s2
  | _, _ => false

/-- The comparison `a <= b`; false when either side is NaN. -/
def F32.le : F32 → F32 → Bool
  | F32.fin s1 m1 e1, F32.fin s2 m2 e2 =>
    let e := min e1 e2
    decide (F32.signed s1 (m1 * 2 ^ (e1 - e).toNat) ≤ F32.signed s2 (m2 * 2 ^ (e2 - e).toNat))
  | F32.fin _ _ _, F32.inf s2 => !s2
  | F32.inf s1, F32.fin _ _ _ => s1
  | F32.inf s1, F32.inf s2 => s1 || !s2
  | _, _ => false

instance : Add F32 := ⟨F32.add⟩

instance : Sub F32 := ⟨F32.sub⟩

instance : Mul F32 := ⟨F32.mul⟩

instance : Div F32 := ⟨F32.div⟩

instance : Neg F32 := ⟨F32.neg⟩

instance (n : Nat) : OfNat F32 n := ⟨F32.ofNat n⟩

instance : LT F32 := ⟨fun a b => F32.lt a b = true⟩

instance : LE F32 := ⟨fun a b => F32.le a b = true⟩

instance (a b : F32) : Decidable (a < b) := inferInstanceAs (Decidable (F32.lt a b = true))

instance (a b : F32) : Decidable (a ≤ b) := inferInstanceAs (Decidable (F32.le a b = true))

/-! ## Library types -/

/-- The `<cmath>` functions called by the program, and the constant `M_PI`. -/
structure CMath (K : Type) where
  sin : K → K
  cos : K → K
  sqrt : K → K
  atan2 : K → K → K
  M_PI : K

/-- The type `sf::Vector2f`. -/
structure Vector2f (K : Type) where
  x : K
  y : K
deriving DecidableEq, Repr

/-- Componentwise `operator-` of `sf::Vector2f`. -/
def Vector2f.sub {K : Type} [Field K] (a b : Vector2f K) : Vector2f K :=
  ⟨a.x - b.x, a.y - b.y⟩

/-- The colours of `sf::Color` the program names. -/
inductive Color where
  | White
  | Red
  | Black
deriving DecidableEq, Repr

/-- The fields of an `sf::CircleShape` that the program sets or reads. -/
structure CircleShape (K : Type) where
  radius : K
  fillColor : Color
  origin : Vector2f K
  position : Vector2f K
deriving DecidableEq, Repr

/-- The fields of an `sf::RectangleShape` that the program sets or reads;
`rotation` holds the angle handed to `setRotation`. -/
structure RectangleShape (K : Type) where
  size : Vector2f K
  fillColor : Color
  origin : Vector2f K
  position : Vector2f K
  rotation : K
deriving DecidableEq, Repr

/-- A default-constructed `sf::CircleShape`: radius 0, white, origin and
position at `(0, 0)`. -/
def CircleShape.default {K : Type} [OfNat K 0] : CircleShape K :=
  { radius := 0, fillColor := Color.White, origin := ⟨0, 0⟩, position := ⟨0, 0⟩ }

/-- A default-constructed `sf::RectangleShape`: size `(0, 0)`, white, origin and
position at `(0, 0)`, rotation 0. -/
def RectangleShape.default {K : Type} [OfNat K 0] : RectangleShape K :=
  { size := ⟨0, 0⟩, fillColor := Color.White, origin := ⟨0, 0⟩, position := ⟨0, 0⟩,
    rotation := 0 }

/-! ## The program -/

/-- The constant `g` (line 10). -/
def g {K : Type} [OfNat K 980] : K := 980

/-- The class `Pendulum` (lines 54-81): one rod with its render shapes. -/
structure Pendulum (K : Type) where
  length : K
  mass : K
  angle : K
  angularVelocity : K
  angularAcceleration : K
  bob : CircleShape K
  line : RectangleShape K
  pivot : Vector2f K
deriving DecidableEq, Repr

/-- The constructor `Pendulum::Pendulum` (lines 65-71), named `new` here.  The
shapes and the pivot are default-constructed; only radius, colours and the
bob's origin are set. -/
def Pendulum.new {K : Type} [OfNat K 0] [OfNat K 10]
    (length mass angle initialAngularVelocity : K) : PendulumProject.Pendulum K :=
  { length := length
    mass := mass
    angle := angle
    angularVelocity := initialAngularVelocity
    angularAcceleration := 0
    bob := { (CircleShape.default : CircleShape K) with
               radius := 10, fillColor := Color.Red, origin := ⟨10, 10⟩ }
    line := { (RectangleShape.default : RectangleShape K) with fillColor := Color.Black }
    pivot := ⟨0, 0⟩ }

/-- The class `DoublePendulum` (lines 83-164). -/
structure DoublePendulum (K : Type) where
  p1 : Pendulum K
  p2 : Pendulum K
deriving DecidableEq, Repr

/-- The constructor `DoublePendulum::DoublePendulum` (lines 89-93), named `new` here. -/
def DoublePendulum.new {K : Type} [OfNat K 0] [OfNat K 10] [OfNat K 300] [OfNat K 500]
    (length1 mass1 angle1 initialAngularVelocity1
     length2 mass2 angle2 initialAngularVelocity2 : K) : PendulumProject.DoublePendulum K :=
  { p1 := { Pendulum.new length1 mass1 angle1 initialAngularVelocity1 with
              pivot := ⟨500, 300⟩ }
    p2 := Pendulum.new length2 mass2 angle2 initialAngularVelocity2 }

/-- The local `den` of `updatePhysics` as first assigned (line 110). -/
def DoublePendulum.den1 {K : Type} [Add K] [Sub K] [Mul K] [OfNat K 2]
    (M : CMath K) (s : DoublePendulum K) : K :=
  let m1 := s.p1.mass
  let m2 := s.p2.mass
  let l1 := s.p1.length
  let a1 := s.p1.angle
  let a2 := s.p2.angle
  l1 * (2 * m1 + m2 - m2 * M.cos (2 * a1 - 2 * a2))

/-- The local `den` of `updatePhysics` as reassigned (line 117). -/
def DoublePendulum.den2 {K : Type} [Add K] [Sub K] [Mul K] [OfNat K 2]
    (M : CMath K) (s : DoublePendulum K) : K :=
  let m1 := s.p1.mass
  let m2 := s.p2.mass
  let l2 := s.p2.length
  let a1 := s.p1.angle
  let a2 := s.p2.angle
  l2 * (2 * m1 + m2 - m2 * M.cos (2 * a1 - 2 * a2))

/-- The local `a1_a` of `updatePhysics` (lines 96-111). -/
def DoublePendulum.a1_a {K : Type} [Add K] [Sub K] [Mul K] [Div K] [Neg K] [OfNat K 2]
    [OfNat K 980] (M : CMath K) (s : DoublePendulum K) : K :=
  let m1 := s.p1.mass
  let m2 := s.p2.mass
  let l1 := s.p1.length
  let l2 := s.p2.length
  let a1 := s.p1.angle
  let a2 := s.p2.angle
  let a1_v := s.p1.angularVelocity
  let a2_v := s.p2.angularVelocity
  let num1 := -g * (2 * m1 + m2) * M.sin a1
  let num2 := -m2 * g * M.sin (a1 - 2 * a2)
  let num3 := -2 * M.sin (a1 - a2) * m2
  let num4 := a2_v * a2_v * l2 + a1_v * a1_v * l1 * M.cos (a1 - a2)
  let den := s.den1 M
  (num1 + num2 + num3 * num4) / den

/-- The local `a2_a` of `updatePhysics` (lines 96-103 and 113-118). -/
def DoublePendulum.a2_a {K : Type} [Add K] [Sub K] [Mul K] [Div K] [OfNat K 2]
    [OfNat K 980] (M : CMath K) (s : DoublePendulum K) : K :=
  let m1 := s.p1.mass
  let m2 := s.p2.mass
  let l1 := s.p1.length
  let l2 := s.p2.length
  let a1 := s.p1.angle
  let a2 := s.p2.angle
  let a1_v := s.p1.angularVelocity
  let a2_v := s.p2.angularVelocity
  let num1 := 2 * M.sin (a1 - a2)
  let num2 := a1_v * a1_v * l1 * (m1 + m2)
  let num3 := g * (m1 + m2) * M.cos a1
  let num4 := a2_v * a2_v * l2 * m2 * M.cos (a1 - a2)
  let den := s.den2 M
  (num1 * (num2 + num3 + num4)) / den

/-- The method `DoublePendulum::updatePhysics` (lines 95-158). -/
def DoublePendulum.updatePhysics {K : Type} [Field K] (M : CMath K)
    (s : DoublePendulum K) (dt : K) : DoublePendulum K :=
  let a1_a := s.a1_a M
  let a2_a := s.a2_a M
  -- Update angular velocities and angles (lines 121-125)
  let p1_angularVelocity := s.p1.angularVelocity + a1_a * dt
  let p1_angle := s.p1.angle + p1_angularVelocity * dt
  let p2_angularVelocity := s.p2.angularVelocity + a2_a * dt
  let p2_angle := s.p2.angle + p2_angularVelocity * dt
  -- Damping (lines 128-129)
  let p1_damped := p1_angularVelocity * (9999 / 10000)
  let p2_damped := p2_angularVelocity * (9999 / 10000)
  -- Update positions (lines 132-138)
  let x1 := s.p1.length * M.sin p1_angle
  let y1 := s.p1.length * M.cos p1_angle
  let p1_bob_position : Vector2f K := ⟨s.p1.pivot.x + x1, s.p1.pivot.y + y1⟩
  let x2 := x1 + s.p2.length * M.sin p2_angle
  let y2 := y1 + s.p2.length * M.cos p2_angle
  let p2_bob_position : Vector2f K := ⟨s.p1.pivot.x + x2, s.p1.pivot.y + y2⟩
  -- Update lines (lines 141-157)
  let bobPosition1 := p1_bob_position
  let lineVec1 := bobPosition1.sub s.p1.pivot
  let lineLength1 := M.sqrt (lineVec1.x * lineVec1.x + lineVec1.y * lineVec1.y)
  let lineAngle1 := M.atan2 lineVec1.y lineVec1.x * 180 / M.M_PI
  let bobPosition2 := p2_bob_position
  let lineVec2 := bobPosition2.sub bobPosition1
  let lineLength2 := M.sqrt (lineVec2.x * lineVec2.x + lineVec2.y * lineVec2.y)
  let lineAngle2 := M.atan2 lineVec2.y lineVec2.x * 180 / M.M_PI
  { p1 := { s.p1 with
              angularVelocity := p1_damped
              angle := p1_angle
              bob := { s.p1.bob with position := p1_bob_position }
              line := { s.p1.line with
                          size := ⟨lineLength1, 5⟩
                          origin := ⟨0, 5 / 2⟩
                          position := s.p1.pivot
                          rotation := lineAngle1 } }
    p2 := { s.p2 with
              angularVelocity := p2_damped
              angle := p2_angle
              bob := { s.p2.bob with position := p2_bob_position }
              line := { s.p2.line with
                          size := ⟨lineLength2, 5⟩
                          origin := ⟨0, 5 / 2⟩
                          position := bobPosition1
                          rotation := lineAngle2 } } }

/-- The methods `Pendulum::draw` (lines 77-80): the line is drawn, then the bob. -/
def Pendulum.draw {K : Type} (p : PendulumProject.Pendulum K) :
    RectangleShape K × CircleShape K :=
  (p.line, p.bob)

/-- The method `DoublePendulum::draw` (lines 160-163): rod 1, then rod 2. -/
def DoublePendulum.draw {K : Type} (s : PendulumProject.DoublePendulum K) :
    List (RectangleShape K × CircleShape K) :=
  [s.p1.draw, s.p2.draw]

/-! ## The loop of `main` -/

/-- The variables of `main` that the frame loop changes.  `steps` is not in the
program: it counts the calls of `updatePhysics`. -/
structure LoopState (K : Type) where
  doublePendulum : DoublePendulum K
  physicsAccumulator : K
  steps : Nat
deriving DecidableEq, Repr

/-- The pendulum that `main` constructs (lines 169-179). -/
def mainPendulum {K : Type} [Field K] (M : CMath K) : DoublePendulum K :=
  let length1 : K := 140
  let mass1 : K := 10
  let angle1 : K := M.M_PI / 2
  let initialAngularVelocity1 : K := 4
  let length2 : K := 100
  let mass2 : K := 10
  let angle2 : K := M.M_PI / 6
  let initialAngularVelocity2 : K := 4
  DoublePendulum.new length1 mass1 angle1 initialAngularVelocity1
    length2 mass2 angle2 initialAngularVelocity2

/-- The constant `physicsDt` of `main` (line 183). -/
def physicsDt {K : Type} [Field K] : K := 1 / 240

/-- The state of `main` on entering the frame loop (lines 179-184). -/
def mainInit {K : Type} [Field K] (M : CMath K) : LoopState K :=
  { doublePendulum := mainPendulum M, physicsAccumulator := 0, steps := 0 }

/-- The physics update loop (lines 197-200), for a step `h`.  The loop runs on
fuel: `none` is returned when the fuel is used up with the loop condition still
true. -/
def physicsLoop {K : Type} [LinearOrderedField K] (M : CMath K) (h : K) :
    Nat → LoopState K → Option (LoopState K)
  | 0, st => if st.physicsAccumulator ≥ h then none else some st
  | fuel + 1, st =>
    if st.physicsAccumulator ≥ h then
      physicsLoop M h fuel
        { doublePendulum := st.doublePendulum.updatePhysics M h
          physicsAccumulator := st.physicsAccumulator - h
          steps := st.steps + 1 }
    else some st

/-- One frame of `main` up to the drawing (lines 193-200): the frame time is
added to the accumulator, then the physics loop runs. -/
def frame {K : Type} [LinearOrderedField K] (M : CMath K) (h : K) (fuel : Nat)
    (st : LoopState K) (frameTime : K) : Option (LoopState K) :=
  physicsLoop M h fuel { st with physicsAccumulator := st.physicsAccumulator + frameTime }

/-- What one frame draws (line 206), after its physics loop. -/
def frameDrawn {K : Type} [LinearOrderedField K] (M : CMath K) (h : K) (fuel : Nat)
    (st : LoopState K) (frameTime : K) : Option (List (RectangleShape K × CircleShape K)) :=
  (frame M h fuel st frameTime).map fun st1 => st1.doublePendulum.draw

/-- The frame loop (lines 186-213) run over a list of frame times. -/
def runFrames {K : Type} [LinearOrderedField K] (M : CMath K) (h : K) (fuel : Nat) :
    LoopState K → List K → Option (LoopState K)
  | st, [] => some st
  | st, frameTime :: rest =>
    match frame M h fuel st frameTime with
    | none => none
    | some st1 => runFrames M h fuel st1 rest

/-! ## Binary32 arithmetic -/

/-- Known values of binary32 arithmetic: `2^24 + 1` rounds down to `2^24` and
`2^24 + 3` up to `2^24 + 4` (ties to even), `0.9999f` is `0x3F7FF972`, `1.0f / 240.0f` is `0x3B888889`,
`2 + 2^30` is absorbed, `1e20f * 1e20f` overflows, half the least subnormal
rounds to 0, and the zero and infinity cases of `*` and `/`. -/
theorem F32_known_values :
    (16777217 : F32) = F32.fin false 1 24
    ∧ (16777219 : F32) = F32.fin false 4194305 2
    ∧ (9999 : F32) / 10000 = F32.fin false 8387769 (-23)
    ∧ (1 : F32) / 240 = F32.fin false 8947849 (-31)
    ∧ (2 : F32) + 1073741824 = 1073741824
    ∧ (100000000000000000000 : F32) * 100000000000000000000 = F32.inf false
    ∧ F32.fin false 1 (-149) / 2 = 0
    ∧ (0 : F32) * F32.inf false = F32.nan
    ∧ (1 : F32) / 0 = F32.inf false
    ∧ -(1 : F32) / 0 = F32.inf true
    ∧ (0 : F32) / 0 = F32.nan
    ∧ (1 : F32) - 1 = 0
    ∧ -(0 : F32) = F32.fin true 0 0 := by
  refine ⟨?_, ?_, ?_, ?_, ?_, ?_, ?_, ?_, ?_, ?_, ?_, ?_, ?_⟩ <;> decide

/-! ## The physics step -/

/-- C1: over the reals and with g = 980, the two angular accelerations that
`updatePhysics` computes from the pre-step state are the reference equations
`(num1 + num2 + num3*num4) / den1` and `num1' * (num2' + num3' + num4') / den2`
written out in masses, lengths, angles and velocities. -/
theorem updatePhysics_accelerations (at2 : ℝ → ℝ → ℝ) (s : DoublePendulum ℝ) :
    s.a1_a (CMath.mk Real.sin Real.cos Real.sqrt at2 Real.pi)
      = (-980 * (2 * s.p1.mass + s.p2.mass) * Real.sin s.p1.angle
          - s.p2.mass * 980 * Real.sin (s.p1.angle - 2 * s.p2.angle)
          - 2 * Real.sin (s.p1.angle - s.p2.angle) * s.p2.mass
              * (s.p2.angularVelocity ^ 2 * s.p2.length
                  + s.p1.angularVelocity ^ 2 * s.p1.length
                      * Real.cos (s.p1.angle - s.p2.angle)))
        / (s.p1.length * (2 * s.p1.mass + s.p2.mass
            - s.p2.mass * Real.cos (2 * s.p1.angle - 2 * s.p2.angle)))
    ∧ s.a2_a (CMath.mk Real.sin Real.cos Real.sqrt at2 Real.pi)
      = 2 * Real.sin (s.p1.angle - s.p2.angle)
          * (s.p1.angularVelocity ^ 2 * s.p1.length * (s.p1.mass + s.p2.mass)
              + 980 * (s.p1.mass + s.p2.mass) * Real.cos s.p1.angle
              + s.p2.angularVelocity ^ 2 * s.p2.length * s.p2.mass
                  * Real.cos (s.p1.angle - s.p2.angle))
        / (s.p2.length * (2 * s.p1.mass + s.p2.mass
            - s.p2.mass * Real.cos (2 * s.p1.angle - 2 * s.p2.angle))) := by
  constructor
  · simp only [DoublePendulum.a1_a, DoublePendulum.den1, g]
    ring
  · simp only [DoublePendulum.a2_a, DoublePendulum.den2, g]
    ring

/-- C2: one call of `updatePhysics dt` is a semi-implicit Euler step with
damping.  With `acc1`, `acc2` the accelerations computed from the pre-step
state, the new velocities are `(v + acc*dt) * 0.9999` and the new angles are
`a + (v + acc*dt) * dt`: each angle moves with the updated, undamped velocity,
and rod 2's acceleration is taken from the pre-step state. -/
theorem updatePhysics_semi_implicit_euler (at2 : ℝ → ℝ → ℝ) (s : DoublePendulum ℝ)
    (dt : ℝ) :
    (s.updatePhysics (CMath.mk Real.sin Real.cos Real.sqrt at2 Real.pi) dt).p1.angularVelocity
      = (s.p1.angularVelocity
          + s.a1_a (CMath.mk Real.sin Real.cos Real.sqrt at2 Real.pi) * dt) * 0.9999
    ∧ (s.updatePhysics (CMath.mk Real.sin Real.cos Real.sqrt at2 Real.pi) dt).p1.angle
      = s.p1.angle + (s.p1.angularVelocity
          + s.a1_a (CMath.mk Real.sin Real.cos Real.sqrt at2 Real.pi) * dt) * dt
    ∧ (s.updatePhysics (CMath.mk Real.sin Real.cos Real.sqrt at2 Real.pi) dt).p2.angularVelocity
      = (s.p2.angularVelocity
          + s.a2_a (CMath.mk Real.sin Real.cos Real.sqrt at2 Real.pi) * dt) * 0.9999
    ∧ (s.updatePhysics (CMath.mk Real.sin Real.cos Real.sqrt at2 Real.pi) dt).p2.angle
      = s.p2.angle + (s.p2.angularVelocity
          + s.a2_a (CMath.mk Real.sin Real.cos Real.sqrt at2 Real.pi) * dt) * dt := by
  refine ⟨?_, rfl, ?_, rfl⟩
  · simp only [DoublePendulum.updatePhysics]
    norm_num
  · simp only [DoublePendulum.updatePhysics]
    norm_num

/-- C8: `updatePhysics dt` leaves length, mass and pivot of both rods unchanged
(and the never-written `angularAcceleration`); of the physical fields only
angle and angularVelocity can change. -/
theorem updatePhysics_frame (at2 : ℝ → ℝ → ℝ) (s : DoublePendulum ℝ) (dt : ℝ) :
    (s.updatePhysics (CMath.mk Real.sin Real.cos Real.sqrt at2 Real.pi) dt).p1.length
      = s.p1.length
    ∧ (s.updatePhysics (CMath.mk Real.sin Real.cos Real.sqrt at2 Real.pi) dt).p1.mass
      = s.p1.mass
    ∧ (s.updatePhysics (CMath.mk Real.sin Real.cos Real.sqrt at2 Real.pi) dt).p2.length
      = s.p2.length
    ∧ (s.updatePhysics (CMath.mk Real.sin Real.cos Real.sqrt at2 Real.pi) dt).p2.mass
      = s.p2.mass
    ∧ (s.updatePhysics (CMath.mk Real.sin Real.cos Real.sqrt at2 Real.pi) dt).p1.pivot
      = s.p1.pivot
    ∧ (s.updatePhysics (CMath.mk Real.sin Real.cos Real.sqrt at2 Real.pi) dt).p2.pivot
      = s.p2.pivot
    ∧ (s.updatePhysics (CMath.mk Real.sin Real.cos Real.sqrt at2 Real.pi) dt).p1.angularAcceleration
      = s.p1.angularAcceleration
    ∧ (s.updatePhysics (CMath.mk Real.sin Real.cos Real.sqrt at2 Real.pi) dt).p2.angularAcceleration
      = s.p2.angularAcceleration :=
  ⟨rfl, rfl, rfl, rfl, rfl, rfl, rfl, rfl⟩

/-! ## The denominators -/

/-- C9, amended: with the arithmetic read over the reals, for `m1 > 0`, `m2 ≥ 0`,
`l1 > 0`, `l2 > 0` and any angles both denominators of `updatePhysics` are at
least `2*m1*l` and so strictly positive: neither division of the step is a
division by zero. -/
theorem den_pos (at2 : ℝ → ℝ → ℝ) (s : DoublePendulum ℝ)
    (hm1 : 0 < s.p1.mass) (hm2 : 0 ≤ s.p2.mass)
    (hl1 : 0 < s.p1.length) (hl2 : 0 < s.p2.length) :
    2 * s.p1.mass * s.p1.length ≤ s.den1 (CMath.mk Real.sin Real.cos Real.sqrt at2 Real.pi)
    ∧ 0 < 2 * s.p1.mass * s.p1.length
    ∧ 2 * s.p1.mass * s.p2.length ≤ s.den2 (CMath.mk Real.sin Real.cos Real.sqrt at2 Real.pi)
    ∧ 0 < 2 * s.p1.mass * s.p2.length
    ∧ s.den1 (CMath.mk Real.sin Real.cos Real.sqrt at2 Real.pi) ≠ 0
    ∧ s.den2 (CMath.mk Real.sin Real.cos Real.sqrt at2 Real.pi) ≠ 0 := by
  have hc : 0 ≤ 1 - Real.cos (2 * s.p1.angle - 2 * s.p2.angle) :=
    sub_nonneg.2 (Real.cos_le_one _)
  have h1 : 0 ≤ s.p1.length * s.p2.mass * (1 - Real.cos (2 * s.p1.angle - 2 * s.p2.angle)) :=
    mul_nonneg (mul_nonneg hl1.le hm2) hc
  have h2 : 0 ≤ s.p2.length * s.p2.mass * (1 - Real.cos (2 * s.p1.angle - 2 * s.p2.angle)) :=
    mul_nonneg (mul_nonneg hl2.le hm2) hc
  have p1 : 0 < 2 * s.p1.mass * s.p1.length := by positivity
  have p2 : 0 < 2 * s.p1.mass * s.p2.length := by positivity
  have d1 : 2 * s.p1.mass * s.p1.length
      ≤ s.den1 (CMath.mk Real.sin Real.cos Real.sqrt at2 Real.pi) := by
    simp only [DoublePendulum.den1]
    nlinarith
  have d2 : 2 * s.p1.mass * s.p2.length
      ≤ s.den2 (CMath.mk Real.sin Real.cos Real.sqrt at2 Real.pi) := by
    simp only [DoublePendulum.den2]
    nlinarith
  exact ⟨d1, p1, d2, p2, (lt_of_lt_of_le p1 d1).ne', (lt_of_lt_of_le p2 d2).ne'⟩

/-- Witness of the amended C9 at the pendulum that `main` constructs. -/
theorem den_pos_witness :
    (2 : ℝ) * 10 * 140 ≤ (mainPendulum (CMath.mk Real.sin Real.cos Real.sqrt
        (fun y x => Complex.arg ⟨x, y⟩) Real.pi)).den1
          (CMath.mk Real.sin Real.cos Real.sqrt (fun y x => Complex.arg ⟨x, y⟩) Real.pi)
    ∧ (mainPendulum (CMath.mk Real.sin Real.cos Real.sqrt
        (fun y x => Complex.arg ⟨x, y⟩) Real.pi)).den2
          (CMath.mk Real.sin Real.cos Real.sqrt (fun y x => Complex.arg ⟨x, y⟩) Real.pi) ≠ 0 :=
  have h := den_pos (fun y x => Complex.arg ⟨x, y⟩)
    (mainPendulum (CMath.mk Real.sin Real.cos Real.sqrt (fun y x => Complex.arg ⟨x, y⟩) Real.pi))
    (by norm_num [mainPendulum, DoublePendulum.new, Pendulum.new])
    (by norm_num [mainPendulum, DoublePendulum.new, Pendulum.new])
    (by norm_num [mainPendulum, DoublePendulum.new, Pendulum.new])
    (by norm_num [mainPendulum, DoublePendulum.new, Pendulum.new])
  ⟨h.1, h.2.2.2.2.2⟩

/-- C9, as stated with no proviso on the arithmetic, fails in the program's
binary32: at `m1 = 1`, `m2 = 2^30`, `l1 = l2 = 1`, `a1 = a2 = 0` every
precondition holds, yet `2*m1 + m2` rounds to `m2`, so both denominators are 0,
below `2*m1*l = 2`, and both accelerations are `0/0 = NaN`; this for every
`<cmath>` with `sin(0) = 0` and `cos(0) = 1`. -/
theorem den_zero_binary32 :
    (0 : F32) < (DoublePendulum.new 1 1 0 0 1 1073741824 0 0 : DoublePendulum F32).p1.mass
    ∧ (0 : F32) ≤ (DoublePendulum.new 1 1 0 0 1 1073741824 0 0 : DoublePendulum F32).p2.mass
    ∧ (0 : F32) < (DoublePendulum.new 1 1 0 0 1 1073741824 0 0 : DoublePendulum F32).p1.length
    ∧ (0 : F32) < (DoublePendulum.new 1 1 0 0 1 1073741824 0 0 : DoublePendulum F32).p2.length
    ∧ ∀ M : CMath F32, M.sin 0 = 0 → M.cos 0 = 1 →
        (DoublePendulum.new 1 1 0 0 1 1073741824 0 0 : DoublePendulum F32).den1 M = 0
        ∧ (DoublePendulum.new 1 1 0 0 1 1073741824 0 0 : DoublePendulum F32).den2 M = 0
        ∧ ¬ (2 * (DoublePendulum.new 1 1 0 0 1 1073741824 0 0 : DoublePendulum F32).p1.mass
              * (DoublePendulum.new 1 1 0 0 1 1073741824 0 0 : DoublePendulum F32).p1.length
            ≤ (DoublePendulum.new 1 1 0 0 1 1073741824 0 0 : DoublePendulum F32).den1 M)
        ∧ ¬ (2 * (DoublePendulum.new 1 1 0 0 1 1073741824 0 0 : DoublePendulum F32).p1.mass
              * (DoublePendulum.new 1 1 0 0 1 1073741824 0 0 : DoublePendulum F32).p2.length
            ≤ (DoublePendulum.new 1 1 0 0 1 1073741824 0 0 : DoublePendulum F32).den2 M)
        ∧ (DoublePendulum.new 1 1 0 0 1 1073741824 0 0 : DoublePendulum F32).a1_a M = F32.nan
        ∧ (DoublePendulum.new 1 1 0 0 1 1073741824 0 0 : DoublePendulum F32).a2_a M
            = F32.nan := by
  refine ⟨by decide, by decide, by decide, by decide, ?_⟩
  intro M hs hc
  have e1 : (2 : F32) * 0 - 2 * 0 = 0 := by decide
  have e2 : (0 : F32) - 2 * 0 = 0 := by decide
  have e3 : (0 : F32) - 0 = 0 := by decide
  have d1 : (DoublePendulum.new 1 1 0 0 1 1073741824 0 0 : DoublePendulum F32).den1 M = 0 := by
    simp only [DoublePendulum.den1, DoublePendulum.new, Pendulum.new, e1, hc]
    decide
  have d2 : (DoublePendulum.new 1 1 0 0 1 1073741824 0 0 : DoublePendulum F32).den2 M = 0 := by
    simp only [DoublePendulum.den2, DoublePendulum.new, Pendulum.new, e1, hc]
    decide
  refine ⟨d1, d2, ?_, ?_, ?_, ?_⟩
  · rw [d1]
    decide
  · rw [d2]
    decide
  · simp only [DoublePendulum.a1_a, d1]
    simp only [DoublePendulum.new, Pendulum.new, g, e2, e3, hs, hc]
    decide
  · simp only [DoublePendulum.a2_a, d2]
    simp only [DoublePendulum.new, Pendulum.new, g, e3, hs, hc]
    decide

/-- C5, as the spec states it, fails: at `m1 = 1`, `m2 = 2 = 2*m1`, lengths 1,
`a1 = π/2`, `a2 = 0` (so `2*a1 - 2*a2 = π`) both denominators are 6, not 0. -/
theorem den_singular_counterexample :
    (0 : ℝ) < (DoublePendulum.new 1 1 (Real.pi / 2) 0 1 2 0 0 : DoublePendulum ℝ).p1.length
    ∧ (0 : ℝ) < (DoublePendulum.new 1 1 (Real.pi / 2) 0 1 2 0 0 : DoublePendulum ℝ).p2.length
    ∧ (0 : ℝ) < (DoublePendulum.new 1 1 (Real.pi / 2) 0 1 2 0 0 : DoublePendulum ℝ).p1.mass
    ∧ (0 : ℝ) < (DoublePendulum.new 1 1 (Real.pi / 2) 0 1 2 0 0 : DoublePendulum ℝ).p2.mass
    ∧ (DoublePendulum.new 1 1 (Real.pi / 2) 0 1 2 0 0 : DoublePendulum ℝ).p2.mass
        = 2 * (DoublePendulum.new 1 1 (Real.pi / 2) 0 1 2 0 0 : DoublePendulum ℝ).p1.mass
    ∧ 2 * (DoublePendulum.new 1 1 (Real.pi / 2) 0 1 2 0 0 : DoublePendulum ℝ).p1.angle
        - 2 * (DoublePendulum.new 1 1 (Real.pi / 2) 0 1 2 0 0 : DoublePendulum ℝ).p2.angle
        = Real.pi + ((0 : ℤ) : ℝ) * (2 * Real.pi)
    ∧ (DoublePendulum.new 1 1 (Real.pi / 2) 0 1 2 0 0 : DoublePendulum ℝ).den1
        (CMath.mk Real.sin Real.cos Real.sqrt (fun y x => Complex.arg ⟨x, y⟩) Real.pi) = 6
    ∧ (DoublePendulum.new 1 1 (Real.pi / 2) 0 1 2 0 0 : DoublePendulum ℝ).den2
        (CMath.mk Real.sin Real.cos Real.sqrt (fun y x => Complex.arg ⟨x, y⟩) Real.pi) = 6
    ∧ ¬ ((DoublePendulum.new 1 1 (Real.pi / 2) 0 1 2 0 0 : DoublePendulum ℝ).den1
          (CMath.mk Real.sin Real.cos Real.sqrt (fun y x => Complex.arg ⟨x, y⟩) Real.pi) = 0
        ∧ (DoublePendulum.new 1 1 (Real.pi / 2) 0 1 2 0 0 : DoublePendulum ℝ).den2
          (CMath.mk Real.sin Real.cos Real.sqrt (fun y x => Complex.arg ⟨x, y⟩) Real.pi) = 0) := by
  have e : 2 * (Real.pi / 2) - 2 * (0 : ℝ) = Real.pi := by ring
  have d1 : (DoublePendulum.new 1 1 (Real.pi / 2) 0 1 2 0 0 : DoublePendulum ℝ).den1
      (CMath.mk Real.sin Real.cos Real.sqrt (fun y x => Complex.arg ⟨x, y⟩) Real.pi) = 6 := by
    simp only [DoublePendulum.den1, DoublePendulum.new, Pendulum.new, e, Real.cos_pi]
    norm_num
  have d2 : (DoublePendulum.new 1 1 (Real.pi / 2) 0 1 2 0 0 : DoublePendulum ℝ).den2
      (CMath.mk Real.sin Real.cos Real.sqrt (fun y x => Complex.arg ⟨x, y⟩) Real.pi) = 6 := by
    simp only [DoublePendulum.den2, DoublePendulum.new, Pendulum.new, e, Real.cos_pi]
    norm_num
  refine ⟨?_, ?_, ?_, ?_, ?_, ?_, d1, d2, ?_⟩
  · norm_num [DoublePendulum.new, Pendulum.new]
  · norm_num [DoublePendulum.new, Pendulum.new]
  · norm_num [DoublePendulum.new, Pendulum.new]
  · norm_num [DoublePendulum.new, Pendulum.new]
  · norm_num [DoublePendulum.new, Pendulum.new]
  · simp only [DoublePendulum.new, Pendulum.new]
    push_cast
    ring
  · rw [d1]
    norm_num

/-- C5, amended: with positive lengths and masses, `2*a1 - 2*a2 ≡ π (mod 2π)` and
`m2 = 2*m1`, the denominators of `updatePhysics` are `6*m1*l1` and `6*m1*l2`,
both strictly positive: the step does not divide by zero there. -/
theorem den_at_antiphase (at2 : ℝ → ℝ → ℝ) (s : DoublePendulum ℝ) (k : ℤ)
    (hl1 : 0 < s.p1.length) (hl2 : 0 < s.p2.length)
    (hm1 : 0 < s.p1.mass) (_hm2 : 0 < s.p2.mass)
    (hphase : 2 * s.p1.angle - 2 * s.p2.angle = Real.pi + (k : ℝ) * (2 * Real.pi))
    (hmass : s.p2.mass = 2 * s.p1.mass) :
    s.den1 (CMath.mk Real.sin Real.cos Real.sqrt at2 Real.pi) = 6 * s.p1.mass * s.p1.length
    ∧ s.den2 (CMath.mk Real.sin Real.cos Real.sqrt at2 Real.pi) = 6 * s.p1.mass * s.p2.length
    ∧ 0 < s.den1 (CMath.mk Real.sin Real.cos Real.sqrt at2 Real.pi)
    ∧ 0 < s.den2 (CMath.mk Real.sin Real.cos Real.sqrt at2 Real.pi) := by
  have hc : Real.cos (2 * s.p1.angle - 2 * s.p2.angle) = -1 := by
    rw [hphase, Real.cos_add_int_mul_two_pi, Real.cos_pi]
  have d1 : s.den1 (CMath.mk Real.sin Real.cos Real.sqrt at2 Real.pi)
      = 6 * s.p1.mass * s.p1.length := by
    simp only [DoublePendulum.den1, hc, hmass]
    ring
  have d2 : s.den2 (CMath.mk Real.sin Real.cos Real.sqrt at2 Real.pi)
      = 6 * s.p1.mass * s.p2.length := by
    simp only [DoublePendulum.den2, hc, hmass]
    ring
  refine ⟨d1, d2, ?_, ?_⟩
  · rw [d1]
    positivity
  · rw [d2]
    positivity

/-- Witness of the amended C5 at `m1 = 1`, `m2 = 2`, lengths 1, `a1 = π/2`,
`a2 = 0`. -/
theorem den_at_antiphase_witness :
    (DoublePendulum.new 1 1 (Real.pi / 2) 0 1 2 0 0 : DoublePendulum ℝ).den1
        (CMath.mk Real.sin Real.cos Real.sqrt (fun y x => Complex.arg ⟨x, y⟩) Real.pi)
      = 6 * 1 * 1
    ∧ 0 < (DoublePendulum.new 1 1 (Real.pi / 2) 0 1 2 0 0 : DoublePendulum ℝ).den2
        (CMath.mk Real.sin Real.cos Real.sqrt (fun y x => Complex.arg ⟨x, y⟩) Real.pi) :=
  have h := den_at_antiphase (fun y x => Complex.arg ⟨x, y⟩)
    (DoublePendulum.new 1 1 (Real.pi / 2) 0 1 2 0 0) 0
    (by norm_num [DoublePendulum.new, Pendulum.new])
    (by norm_num [DoublePendulum.new, Pendulum.new])
    (by norm_num [DoublePendulum.new, Pendulum.new])
    (by norm_num [DoublePendulum.new, Pendulum.new])
    (by simp only [DoublePendulum.new, Pendulum.new]; push_cast; ring)
    (by norm_num [DoublePendulum.new, Pendulum.new])
  ⟨h.1, h.2.2.2⟩

/-! ## Single-rod reduction -/

/-- C6, amended: with the arithmetic read over the reals, for `mass2 = 0`,
`mass1 > 0` and `length1 > 0` the acceleration that `updatePhysics` computes for
rod 1 is that of a simple pendulum,
`-(g/length1) * sin(angle1)`; rod 1's new velocity is
`(v1 - (g/length1)*sin(a1)*dt) * 0.9999`, the same for every state that agrees
on rod 1 and has `mass2 = 0`, whatever rod 2's length, angle and velocity. -/
theorem single_rod_reduction (at2 : ℝ → ℝ → ℝ) (s : DoublePendulum ℝ) (dt : ℝ)
    (hm2 : s.p2.mass = 0) (hm1 : 0 < s.p1.mass) (hl1 : 0 < s.p1.length) :
    s.a1_a (CMath.mk Real.sin Real.cos Real.sqrt at2 Real.pi)
      = -(980 / s.p1.length) * Real.sin s.p1.angle
    ∧ (s.updatePhysics (CMath.mk Real.sin Real.cos Real.sqrt at2 Real.pi) dt).p1.angularVelocity
      = (s.p1.angularVelocity - (980 / s.p1.length) * Real.sin s.p1.angle * dt) * 0.9999
    ∧ ∀ t : DoublePendulum ℝ, t.p2.mass = 0 → t.p1.mass = s.p1.mass →
        t.p1.length = s.p1.length → t.p1.angle = s.p1.angle →
        t.p1.angularVelocity = s.p1.angularVelocity →
        (t.updatePhysics (CMath.mk Real.sin Real.cos Real.sqrt at2 Real.pi) dt).p1.angularVelocity
          = (s.updatePhysics (CMath.mk Real.sin Real.cos Real.sqrt at2 Real.pi)
              dt).p1.angularVelocity := by
  have key : ∀ u : DoublePendulum ℝ, u.p2.mass = 0 → 0 < u.p1.mass → 0 < u.p1.length →
      u.a1_a (CMath.mk Real.sin Real.cos Real.sqrt at2 Real.pi)
        = -(980 / u.p1.length) * Real.sin u.p1.angle := by
    intro u h2 h1 hl
    have hm : u.p1.mass ≠ 0 := h1.ne'
    have hlen : u.p1.length ≠ 0 := hl.ne'
    simp only [DoublePendulum.a1_a, DoublePendulum.den1, g, h2]
    field_simp
    ring
  have vel : ∀ u : DoublePendulum ℝ, u.p2.mass = 0 → 0 < u.p1.mass → 0 < u.p1.length →
      (u.updatePhysics (CMath.mk Real.sin Real.cos Real.sqrt at2 Real.pi) dt).p1.angularVelocity
        = (u.p1.angularVelocity - (980 / u.p1.length) * Real.sin u.p1.angle * dt) * 0.9999 := by
    intro u h2 h1 hl
    have e : (u.updatePhysics (CMath.mk Real.sin Real.cos Real.sqrt at2 Real.pi)
        dt).p1.angularVelocity
        = (u.p1.angularVelocity
            + u.a1_a (CMath.mk Real.sin Real.cos Real.sqrt at2 Real.pi) * dt)
          * (9999 / 10000) := rfl
    rw [e, key u h2 h1 hl]
    ring
  refine ⟨key s hm2 hm1 hl1, vel s hm2 hm1 hl1, ?_⟩
  intro t ht2 htm htl hta htv
  rw [vel s hm2 hm1 hl1, vel t ht2 (htm ▸ hm1) (htl ▸ hl1), htl, hta, htv]

/-- Witness of the amended C6: the pendulum of `main` with `mass2` set to 0,
`dt = 1/240`. -/
theorem single_rod_reduction_witness :
    (DoublePendulum.new 140 10 (Real.pi / 2) 4 100 0 (Real.pi / 6) 4 : DoublePendulum ℝ).a1_a
        (CMath.mk Real.sin Real.cos Real.sqrt (fun y x => Complex.arg ⟨x, y⟩) Real.pi)
      = -7 :=
  have h := single_rod_reduction (fun y x => Complex.arg ⟨x, y⟩)
    (DoublePendulum.new 140 10 (Real.pi / 2) 4 100 0 (Real.pi / 6) 4) (1 / 240)
    rfl
    (by norm_num [DoublePendulum.new, Pendulum.new])
    (by norm_num [DoublePendulum.new, Pendulum.new])
  h.1.trans (by norm_num [DoublePendulum.new, Pendulum.new])

/-- C6, as stated with no proviso on the arithmetic, fails in the program's
binary32: at `length1 = 140`, `mass1 = 10`, `mass2 = 0`, both angles 0 and rod 2's
velocity `1e20f`, line 109 overflows to `inf` and line 111 multiplies it by a
zero, so `a1_a` is NaN and not the simple pendulum's `-(g/length1)*sin(angle1)`,
which is `-0`; with rod 2's velocity 4 instead `a1_a` is `-0`, so rod 1's
acceleration does depend on rod 2's velocity.  This for every `<cmath>` with
`sin(0) = 0` and `cos(0) = 1`. -/
theorem single_rod_nan_binary32 :
    (DoublePendulum.new 140 10 0 4 100 0 0 100000000000000000000 : DoublePendulum F32).p2.mass
      = 0
    ∧ (0 : F32)
      < (DoublePendulum.new 140 10 0 4 100 0 0 100000000000000000000 : DoublePendulum F32).p1.mass
    ∧ (0 : F32)
      < (DoublePendulum.new 140 10 0 4 100 0 0 100000000000000000000
          : DoublePendulum F32).p1.length
    ∧ ∀ M : CMath F32, M.sin 0 = 0 → M.cos 0 = 1 →
        (DoublePendulum.new 140 10 0 4 100 0 0 100000000000000000000 : DoublePendulum F32).a1_a M
          = F32.nan
        ∧ -(980 / (DoublePendulum.new 140 10 0 4 100 0 0 100000000000000000000
              : DoublePendulum F32).p1.length)
            * M.sin (DoublePendulum.new 140 10 0 4 100 0 0 100000000000000000000
              : DoublePendulum F32).p1.angle
          = F32.fin true 0 0
        ∧ (DoublePendulum.new 140 10 0 4 100 0 0 100000000000000000000 : DoublePendulum F32).a1_a M
          ≠ -(980 / (DoublePendulum.new 140 10 0 4 100 0 0 100000000000000000000
              : DoublePendulum F32).p1.length)
            * M.sin (DoublePendulum.new 140 10 0 4 100 0 0 100000000000000000000
              : DoublePendulum F32).p1.angle
        ∧ (DoublePendulum.new 140 10 0 4 100 0 0 4 : DoublePendulum F32).a1_a M
          = F32.fin true 0 0 := by
  refine ⟨by decide, by decide, by decide, ?_⟩
  intro M hs hc
  have e1 : (2 : F32) * 0 - 2 * 0 = 0 := by decide
  have e2 : (0 : F32) - 2 * 0 = 0 := by decide
  have e3 : (0 : F32) - 0 = 0 := by decide
  have a : (DoublePendulum.new 140 10 0 4 100 0 0 100000000000000000000
      : DoublePendulum F32).a1_a M = F32.nan := by
    simp only [DoublePendulum.a1_a, DoublePendulum.den1, DoublePendulum.new, Pendulum.new, g,
      e1, e2, e3, hs, hc]
    decide
  have r : -(980 / (DoublePendulum.new 140 10 0 4 100 0 0 100000000000000000000
        : DoublePendulum F32).p1.length)
      * M.sin (DoublePendulum.new 140 10 0 4 100 0 0 100000000000000000000
        : DoublePendulum F32).p1.angle = F32.fin true 0 0 := by
    simp only [DoublePendulum.new, Pendulum.new, hs]
    decide
  refine ⟨a, r, ?_, ?_⟩
  · rw [a, r]
    decide
  · simp only [DoublePendulum.a1_a, DoublePendulum.den1, DoublePendulum.new, Pendulum.new, g,
      e1, e2, e3, hs, hc]
    decide

/-! ## Render geometry after a step -/

/-- C4: after `updatePhysics dt` the stored bob positions are the position
derivation of the updated angles about the pivot, which the constructor puts at
`(500, 300)`: `bob1 = pivot + (l1 sin a1', l1 cos a1')` and
`bob2 = pivot + (l1 sin a1' + l2 sin a2', l1 cos a1' + l2 cos a2')`.  An angle
of 0 puts a bob straight below its upper end (`+y`), an angle of `π/2` puts it
at `+x`. -/
theorem updatePhysics_bob_positions (at2 : ℝ → ℝ → ℝ) (s : DoublePendulum ℝ) (dt : ℝ) :
    (s.updatePhysics (CMath.mk Real.sin Real.cos Real.sqrt at2 Real.pi) dt).p1.bob.position
      = ⟨s.p1.pivot.x + s.p1.length * Real.sin
            (s.updatePhysics (CMath.mk Real.sin Real.cos Real.sqrt at2 Real.pi) dt).p1.angle,
         s.p1.pivot.y + s.p1.length * Real.cos
            (s.updatePhysics (CMath.mk Real.sin Real.cos Real.sqrt at2 Real.pi) dt).p1.angle⟩
    ∧ (s.updatePhysics (CMath.mk Real.sin Real.cos Real.sqrt at2 Real.pi) dt).p2.bob.position
      = ⟨s.p1.pivot.x + s.p1.length * Real.sin
            (s.updatePhysics (CMath.mk Real.sin Real.cos Real.sqrt at2 Real.pi) dt).p1.angle
          + s.p2.length * Real.sin
            (s.updatePhysics (CMath.mk Real.sin Real.cos Real.sqrt at2 Real.pi) dt).p2.angle,
         s.p1.pivot.y + s.p1.length * Real.cos
            (s.updatePhysics (CMath.mk Real.sin Real.cos Real.sqrt at2 Real.pi) dt).p1.angle
          + s.p2.length * Real.cos
            (s.updatePhysics (CMath.mk Real.sin Real.cos Real.sqrt at2 Real.pi) dt).p2.angle⟩
    ∧ ((s.updatePhysics (CMath.mk Real.sin Real.cos Real.sqrt at2 Real.pi) dt).p1.angle = 0 →
        (s.updatePhysics (CMath.mk Real.sin Real.cos Real.sqrt at2 Real.pi) dt).p1.bob.position
          = ⟨s.p1.pivot.x, s.p1.pivot.y + s.p1.length⟩)
    ∧ ((s.updatePhysics (CMath.mk Real.sin Real.cos Real.sqrt at2 Real.pi) dt).p1.angle
          = Real.pi / 2 →
        (s.updatePhysics (CMath.mk Real.sin Real.cos Real.sqrt at2 Real.pi) dt).p1.bob.position
          = ⟨s.p1.pivot.x + s.p1.length, s.p1.pivot.y⟩)
    ∧ ((s.updatePhysics (CMath.mk Real.sin Real.cos Real.sqrt at2 Real.pi) dt).p2.angle = 0 →
        (s.updatePhysics (CMath.mk Real.sin Real.cos Real.sqrt at2 Real.pi) dt).p2.bob.position
          = ⟨(s.updatePhysics (CMath.mk Real.sin Real.cos Real.sqrt at2 Real.pi)
                dt).p1.bob.position.x,
             (s.updatePhysics (CMath.mk Real.sin Real.cos Real.sqrt at2 Real.pi)
                dt).p1.bob.position.y + s.p2.length⟩)
    ∧ ((s.updatePhysics (CMath.mk Real.sin Real.cos Real.sqrt at2 Real.pi) dt).p2.angle
          = Real.pi / 2 →
        (s.updatePhysics (CMath.mk Real.sin Real.cos Real.sqrt at2 Real.pi) dt).p2.bob.position
          = ⟨(s.updatePhysics (CMath.mk Real.sin Real.cos Real.sqrt at2 Real.pi)
                dt).p1.bob.position.x + s.p2.length,
             (s.updatePhysics (CMath.mk Real.sin Real.cos Real.sqrt at2 Real.pi)
                dt).p1.bob.position.y⟩)
    ∧ ∀ length1 mass1 angle1 v1 length2 mass2 angle2 v2 : ℝ,
        (DoublePendulum.new length1 mass1 angle1 v1 length2 mass2 angle2 v2).p1.pivot
          = ⟨500, 300⟩ := by
  have b1 : (s.updatePhysics (CMath.mk Real.sin Real.cos Real.sqrt at2 Real.pi)
      dt).p1.bob.position
      = ⟨s.p1.pivot.x + s.p1.length * Real.sin
            (s.updatePhysics (CMath.mk Real.sin Real.cos Real.sqrt at2 Real.pi) dt).p1.angle,
         s.p1.pivot.y + s.p1.length * Real.cos
            (s.updatePhysics (CMath.mk Real.sin Real.cos Real.sqrt at2 Real.pi) dt).p1.angle⟩ :=
    rfl
  have b2 : (s.updatePhysics (CMath.mk Real.sin Real.cos Real.sqrt at2 Real.pi)
      dt).p2.bob.position
      = ⟨(s.updatePhysics (CMath.mk Real.sin Real.cos Real.sqrt at2 Real.pi)
            dt).p1.bob.position.x + s.p2.length * Real.sin
            (s.updatePhysics (CMath.mk Real.sin Real.cos Real.sqrt at2 Real.pi) dt).p2.angle,
         (s.updatePhysics (CMath.mk Real.sin Real.cos Real.sqrt at2 Real.pi)
            dt).p1.bob.position.y + s.p2.length * Real.cos
            (s.updatePhysics (CMath.mk Real.sin Real.cos Real.sqrt at2 Real.pi) dt).p2.angle⟩ := by
    simp only [DoublePendulum.updatePhysics, Vector2f.mk.injEq]
    constructor <;> ring
  refine ⟨b1, ?_, ?_, ?_, ?_, ?_, fun _ _ _ _ _ _ _ _ => rfl⟩
  · rw [b2, b1]
  · intro h
    rw [b1, h]
    simp
  · intro h
    rw [b1, h]
    simp
  · intro h
    rw [b2, h]
    simp
  · intro h
    rw [b2, h]
    simp

/-- The pendulum hanging at rest stays at angles 0, so that after a step both
bobs are straight below the pivot: an instance of the angle-0 case of C4. -/
theorem updatePhysics_bob_positions_witness :
    ((DoublePendulum.new 140 10 0 0 100 10 0 0 : DoublePendulum ℝ).updatePhysics
        (CMath.mk Real.sin Real.cos Real.sqrt (fun y x => Complex.arg ⟨x, y⟩) Real.pi)
        (1 / 240)).p1.bob.position = ⟨500, 300 + 140⟩
    ∧ ((DoublePendulum.new 140 10 0 0 100 10 0 0 : DoublePendulum ℝ).updatePhysics
        (CMath.mk Real.sin Real.cos Real.sqrt (fun y x => Complex.arg ⟨x, y⟩) Real.pi)
        (1 / 240)).p2.bob.position = ⟨500, 300 + 140 + 100⟩ := by
  have h := updatePhysics_bob_positions (fun y x => Complex.arg ⟨x, y⟩)
    (DoublePendulum.new 140 10 0 0 100 10 0 0) (1 / 240)
  have a1 : ((DoublePendulum.new 140 10 0 0 100 10 0 0 : DoublePendulum ℝ).updatePhysics
      (CMath.mk Real.sin Real.cos Real.sqrt (fun y x => Complex.arg ⟨x, y⟩) Real.pi)
      (1 / 240)).p1.angle = 0 := by
    simp [DoublePendulum.updatePhysics, DoublePendulum.a1_a, DoublePendulum.new, Pendulum.new]
  have a2 : ((DoublePendulum.new 140 10 0 0 100 10 0 0 : DoublePendulum ℝ).updatePhysics
      (CMath.mk Real.sin Real.cos Real.sqrt (fun y x => Complex.arg ⟨x, y⟩) Real.pi)
      (1 / 240)).p2.angle = 0 := by
    simp [DoublePendulum.updatePhysics, DoublePendulum.a2_a, DoublePendulum.new, Pendulum.new]
  have q1 := h.2.2.1 a1
  have q2 := h.2.2.2.2.1 a2
  rw [q1] at q2
  exact ⟨q1, q2⟩

/-- C10: after `updatePhysics dt` the length computed for line 1 (the distance
from the pivot to bob 1) is `|l1|` and the length computed for line 2 (from
bob 1 to bob 2) is `|l2|`, whatever the angles; for `l1 ≥ 0` and `l2 ≥ 0` they
are `l1` and `l2`: the rendered rods stay rigid. -/
theorem updatePhysics_line_lengths (at2 : ℝ → ℝ → ℝ) (s : DoublePendulum ℝ) (dt : ℝ) :
    (s.updatePhysics (CMath.mk Real.sin Real.cos Real.sqrt at2 Real.pi) dt).p1.line.size
      = ⟨|s.p1.length|, 5⟩
    ∧ (s.updatePhysics (CMath.mk Real.sin Real.cos Real.sqrt at2 Real.pi) dt).p2.line.size
      = ⟨|s.p2.length|, 5⟩
    ∧ (0 ≤ s.p1.length →
        (s.updatePhysics (CMath.mk Real.sin Real.cos Real.sqrt at2 Real.pi) dt).p1.line.size
          = ⟨s.p1.length, 5⟩)
    ∧ (0 ≤ s.p2.length →
        (s.updatePhysics (CMath.mk Real.sin Real.cos Real.sqrt at2 Real.pi) dt).p2.line.size
          = ⟨s.p2.length, 5⟩) := by
  have rigid : ∀ l θ : ℝ,
      Real.sqrt (l * Real.sin θ * (l * Real.sin θ) + l * Real.cos θ * (l * Real.cos θ))
        = |l| := by
    intro l θ
    have e : l * Real.sin θ * (l * Real.sin θ) + l * Real.cos θ * (l * Real.cos θ) = l ^ 2 := by
      have := Real.sin_sq_add_cos_sq θ
      nlinarith
    rw [e, Real.sqrt_sq_eq_abs]
  have s1 : (s.updatePhysics (CMath.mk Real.sin Real.cos Real.sqrt at2 Real.pi)
      dt).p1.line.size = ⟨|s.p1.length|, 5⟩ := by
    simp only [DoublePendulum.updatePhysics, Vector2f.sub, Vector2f.mk.injEq, and_true,
      add_sub_cancel_left]
    exact rigid _ _
  have s2 : (s.updatePhysics (CMath.mk Real.sin Real.cos Real.sqrt at2 Real.pi)
      dt).p2.line.size = ⟨|s.p2.length|, 5⟩ := by
    simp only [DoublePendulum.updatePhysics, Vector2f.sub, Vector2f.mk.injEq, and_true]
    have ex : ∀ p x d : ℝ, p + (x + d) - (p + x) = d := fun p x d => by ring
    rw [ex, ex]
    exact rigid _ _
  refine ⟨s1, s2, ?_, ?_⟩
  · intro h
    rw [s1, abs_of_nonneg h]
  · intro h
    rw [s2, abs_of_nonneg h]

/-- An instance of C10: one step of the pendulum of `main` stores line lengths
140 and 100. -/
theorem updatePhysics_line_lengths_witness :
    ((mainPendulum (CMath.mk Real.sin Real.cos Real.sqrt
        (fun y x => Complex.arg ⟨x, y⟩) Real.pi)).updatePhysics
        (CMath.mk Real.sin Real.cos Real.sqrt (fun y x => Complex.arg ⟨x, y⟩) Real.pi)
        (1 / 240)).p1.line.size = ⟨140, 5⟩
    ∧ ((mainPendulum (CMath.mk Real.sin Real.cos Real.sqrt
        (fun y x => Complex.arg ⟨x, y⟩) Real.pi)).updatePhysics
        (CMath.mk Real.sin Real.cos Real.sqrt (fun y x => Complex.arg ⟨x, y⟩) Real.pi)
        (1 / 240)).p2.line.size = ⟨100, 5⟩ :=
  have h := updatePhysics_line_lengths (fun y x => Complex.arg ⟨x, y⟩)
    (mainPendulum (CMath.mk Real.sin Real.cos Real.sqrt (fun y x => Complex.arg ⟨x, y⟩) Real.pi))
    (1 / 240)
  ⟨h.2.2.1 (by norm_num [mainPendulum, DoublePendulum.new, Pendulum.new]),
   h.2.2.2 (by norm_num [mainPendulum, DoublePendulum.new, Pendulum.new])⟩

/-! ## The accumulator loop -/

/-- With a positive step and enough fuel the physics loop ends: it takes
`⌊acc / h⌋` steps and leaves `acc - ⌊acc / h⌋ * h` in the accumulator. -/
theorem physicsLoop_drains {K : Type} [LinearOrderedField K] [FloorRing K] (M : CMath K)
    (h : K) (hh : 0 < h) :
    ∀ (fuel : Nat) (st : LoopState K), 0 ≤ st.physicsAccumulator →
      ⌊st.physicsAccumulator / h⌋₊ ≤ fuel →
      physicsLoop M h fuel st = some
        { doublePendulum :=
            (fun d => d.updatePhysics M h)^[⌊st.physicsAccumulator / h⌋₊] st.doublePendulum
          physicsAccumulator := st.physicsAccumulator - ⌊st.physicsAccumulator / h⌋₊ * h
          steps := st.steps + ⌊st.physicsAccumulator / h⌋₊ } := by
  intro fuel
  induction fuel with
  | zero =>
    intro st _ hf
    have hn : ⌊st.physicsAccumulator / h⌋₊ = 0 := Nat.le_zero.1 hf
    have hlt : st.physicsAccumulator < h := by
      have h1 := Nat.floor_eq_zero.1 hn
      rwa [div_lt_one hh] at h1
    simp [physicsLoop, hn, not_le.2 hlt]
  | succ fuel ih =>
    intro st h0 hf
    by_cases hge : st.physicsAccumulator ≥ h
    · have h1 : ((1 : Nat) : K) ≤ st.physicsAccumulator / h := by
        rw [Nat.cast_one]
        exact (one_le_div hh).2 hge
      have hpos : 1 ≤ ⌊st.physicsAccumulator / h⌋₊ := Nat.le_floor h1
      have hsub : (st.physicsAccumulator - h) / h = st.physicsAccumulator / h - 1 := by
        field_simp
      have hfl : ⌊(st.physicsAccumulator - h) / h⌋₊ = ⌊st.physicsAccumulator / h⌋₊ - 1 := by
        rw [hsub, Nat.floor_sub_one]
      obtain ⟨n, hn⟩ : ∃ n, ⌊st.physicsAccumulator / h⌋₊ = n + 1 :=
        ⟨⌊st.physicsAccumulator / h⌋₊ - 1, by omega⟩
      have hfl2 : ⌊(st.physicsAccumulator - h) / h⌋₊ = n := by omega
      have step := ih
        { doublePendulum := st.doublePendulum.updatePhysics M h
          physicsAccumulator := st.physicsAccumulator - h
          steps := st.steps + 1 }
        (sub_nonneg.2 hge) (by show ⌊(st.physicsAccumulator - h) / h⌋₊ ≤ fuel; omega)
      rw [physicsLoop, if_pos hge, step]
      simp only [hfl2, hn, Function.iterate_succ, Function.comp_apply, Option.some.injEq,
        LoopState.mk.injEq, true_and]
      constructor
      · push_cast
        ring
      · omega
    · have hlt : st.physicsAccumulator < h := not_le.1 hge
      have hn : ⌊st.physicsAccumulator / h⌋₊ = 0 :=
        Nat.floor_eq_zero.2 ((div_lt_one hh).2 hlt)
      rw [physicsLoop, if_neg hge]
      simp [hn]

/-- The frame loop from any state whose accumulator lies in `[0, h)`: over
non-negative frame times it takes `⌊(acc + Σ frames) / h⌋` steps in all. -/
theorem runFrames_from {K : Type} [LinearOrderedField K] [FloorRing K] (M : CMath K)
    (h : K) (hh : 0 < h) (fuel : Nat) :
    ∀ (frames : List K) (st : LoopState K), (∀ f ∈ frames, 0 ≤ f) →
      0 ≤ st.physicsAccumulator → st.physicsAccumulator < h →
      ⌊(st.physicsAccumulator + frames.sum) / h⌋₊ ≤ fuel →
      runFrames M h fuel st frames = some
        { doublePendulum :=
            (fun d => d.updatePhysics M h)^[⌊(st.physicsAccumulator + frames.sum) / h⌋₊]
              st.doublePendulum
          physicsAccumulator :=
            st.physicsAccumulator + frames.sum
              - ⌊(st.physicsAccumulator + frames.sum) / h⌋₊ * h
          steps := st.steps + ⌊(st.physicsAccumulator + frames.sum) / h⌋₊ } := by
  intro frames
  induction frames with
  | nil =>
    intro st _ h0 hlt _
    have hn : ⌊st.physicsAccumulator / h⌋₊ = 0 :=
      Nat.floor_eq_zero.2 ((div_lt_one hh).2 hlt)
    simp [runFrames, hn]
  | cons f rest ih =>
    intro st hf h0 hlt hfuel
    have hf0 : 0 ≤ f := hf f (List.mem_cons_self f rest)
    have hrest : ∀ x ∈ rest, 0 ≤ x := fun x hx => hf x (List.mem_cons_of_mem f hx)
    have hsum : 0 ≤ rest.sum := List.sum_nonneg hrest
    have hx0 : 0 ≤ st.physicsAccumulator + f := add_nonneg h0 hf0
    have hq0 : 0 ≤ (st.physicsAccumulator + f) / h := div_nonneg hx0 hh.le
    have hle : ⌊(st.physicsAccumulator + f) / h⌋₊
        ≤ ⌊(st.physicsAccumulator + (f :: rest).sum) / h⌋₊ := by
      apply Nat.floor_mono
      apply div_le_div_of_nonneg_right _ hh.le
      rw [List.sum_cons]
      linarith
    have hk1 : (⌊(st.physicsAccumulator + f) / h⌋₊ : K) * h ≤ st.physicsAccumulator + f :=
      (le_div_iff₀ hh).1 (Nat.floor_le hq0)
    have hk2 : st.physicsAccumulator + f < ((⌊(st.physicsAccumulator + f) / h⌋₊ : K) + 1) * h :=
      (div_lt_iff₀ hh).1 (Nat.lt_floor_add_one _)
    have hdrain := physicsLoop_drains M h hh fuel
      { st with physicsAccumulator := st.physicsAccumulator + f } hx0 (le_trans hle hfuel)
    have hsplit : (st.physicsAccumulator + f - (⌊(st.physicsAccumulator + f) / h⌋₊ : K) * h
        + rest.sum) / h
        = (st.physicsAccumulator + (f :: rest).sum) / h
          - (⌊(st.physicsAccumulator + f) / h⌋₊ : K) := by
      rw [List.sum_cons]
      field_simp
      ring
    have hfloor : ⌊(st.physicsAccumulator + f - (⌊(st.physicsAccumulator + f) / h⌋₊ : K) * h
        + rest.sum) / h⌋₊
        = ⌊(st.physicsAccumulator + (f :: rest).sum) / h⌋₊
          - ⌊(st.physicsAccumulator + f) / h⌋₊ := by
      rw [hsplit, Nat.floor_sub_nat]
    have hrec := ih
      { doublePendulum :=
          (fun d => d.updatePhysics M h)^[⌊(st.physicsAccumulator + f) / h⌋₊] st.doublePendulum
        physicsAccumulator :=
          st.physicsAccumulator + f - (⌊(st.physicsAccumulator + f) / h⌋₊ : K) * h
        steps := st.steps + ⌊(st.physicsAccumulator + f) / h⌋₊ }
      hrest (by simp only; linarith) (by simp only; linarith)
      (by simp only; rw [hfloor]; omega)
    simp only [runFrames, frame]
    rw [hdrain]
    simp only
    rw [hrec]
    simp only [hfloor, Option.some.injEq, LoopState.mk.injEq]
    refine ⟨?_, ?_, ?_⟩
    · rw [← Function.iterate_add_apply]
      congr 1
      omega
    · rw [Nat.cast_sub hle, List.sum_cons]
      ring
    · omega

/-- C3: for a step `h > 0` and non-negative frame times summing to `T`, the
accumulator loop of `main`, started with an empty accumulator and given enough
fuel, ends having made exactly `⌊T / h⌋` calls of `updatePhysics h`, however
`T` is split into frames; the final state is the same for every split of `T`,
in particular for one frame of `T` and for ten frames of `T / 10`. -/
theorem fixed_step_decoupling {K : Type} [LinearOrderedField K] [FloorRing K] (M : CMath K)
    (h : K) (hh : 0 < h) (frames : List K) (hf : ∀ f ∈ frames, 0 ≤ f)
    (dp : DoublePendulum K) (fuel : Nat) (hfuel : ⌊frames.sum / h⌋₊ ≤ fuel) :
    runFrames M h fuel { doublePendulum := dp, physicsAccumulator := 0, steps := 0 } frames
      = some
        { doublePendulum := (fun d => d.updatePhysics M h)^[⌊frames.sum / h⌋₊] dp
          physicsAccumulator := frames.sum - ⌊frames.sum / h⌋₊ * h
          steps := ⌊frames.sum / h⌋₊ }
    ∧ (∀ frames2 : List K, (∀ f ∈ frames2, 0 ≤ f) → frames2.sum = frames.sum →
        runFrames M h fuel { doublePendulum := dp, physicsAccumulator := 0, steps := 0 } frames2
          = runFrames M h fuel { doublePendulum := dp, physicsAccumulator := 0, steps := 0 }
              frames)
    ∧ (∀ T : K, 0 ≤ T → ⌊T / h⌋₊ ≤ fuel →
        runFrames M h fuel { doublePendulum := dp, physicsAccumulator := 0, steps := 0 }
            (List.replicate 10 (T / 10))
          = runFrames M h fuel { doublePendulum := dp, physicsAccumulator := 0, steps := 0 } [T]
        ∧ runFrames M h fuel { doublePendulum := dp, physicsAccumulator := 0, steps := 0 } [T]
          = some
            { doublePendulum := (fun d => d.updatePhysics M h)^[⌊T / h⌋₊] dp
              physicsAccumulator := T - ⌊T / h⌋₊ * h
              steps := ⌊T / h⌋₊ }) := by
  have main : ∀ fr : List K, (∀ f ∈ fr, 0 ≤ f) → ⌊fr.sum / h⌋₊ ≤ fuel →
      runFrames M h fuel { doublePendulum := dp, physicsAccumulator := 0, steps := 0 } fr
        = some
          { doublePendulum := (fun d => d.updatePhysics M h)^[⌊fr.sum / h⌋₊] dp
            physicsAccumulator := fr.sum - ⌊fr.sum / h⌋₊ * h
            steps := ⌊fr.sum / h⌋₊ } := by
    intro fr hfr hfu
    have r := runFrames_from M h hh fuel fr
      { doublePendulum := dp, physicsAccumulator := 0, steps := 0 } hfr (le_refl _) hh
      (by simpa using hfu)
    simpa using r
  refine ⟨main frames hf hfuel, ?_, ?_⟩
  · intro frames2 hf2 hs
    rw [main frames hf hfuel, main frames2 hf2 (by rw [hs]; exact hfuel), hs]
  · intro T hT hTf
    have hten : (List.replicate 10 (T / 10)).sum = T := by
      simp only [List.sum_replicate, nsmul_eq_mul]
      push_cast
      ring
    have hone : ([T] : List K).sum = T := by simp
    have h10 : ∀ f ∈ List.replicate 10 (T / 10), 0 ≤ f := by
      intro f hfm
      rw [List.eq_of_mem_replicate hfm]
      positivity
    have h1 : ∀ f ∈ ([T] : List K), 0 ≤ f := by
      intro f hfm
      rw [List.mem_singleton.1 hfm]
      exact hT
    have r1 := main [T] h1 (by rw [hone]; exact hTf)
    have r10 := main (List.replicate 10 (T / 10)) h10 (by rw [hten]; exact hTf)
    rw [hone] at r1
    rw [hten] at r10
    exact ⟨r10.trans r1.symm, r1⟩

/-- Witness of C3: `main` with its own step `1/240` over three frames of `1/100`
seconds makes `⌊(3/100) / (1/240)⌋ = 7` physics steps. -/
theorem fixed_step_decoupling_witness :
    (runFrames (CMath.mk Real.sin Real.cos Real.sqrt (fun y x => Complex.arg ⟨x, y⟩) Real.pi)
        physicsDt 7
        (mainInit (CMath.mk Real.sin Real.cos Real.sqrt (fun y x => Complex.arg ⟨x, y⟩) Real.pi))
        [1 / 100, 1 / 100, 1 / 100]).map (fun st => st.steps) = some 7 := by
  have hfl : ⌊([1 / 100, 1 / 100, 1 / 100] : List ℝ).sum / physicsDt⌋₊ = 7 := by
    rw [Nat.floor_eq_iff (by norm_num [physicsDt])]
    norm_num [physicsDt]
  have h := fixed_step_decoupling
    (CMath.mk Real.sin Real.cos Real.sqrt (fun y x => Complex.arg ⟨x, y⟩) Real.pi)
    (physicsDt : ℝ) (by norm_num [physicsDt]) [1 / 100, 1 / 100, 1 / 100]
    (by
      intro f hf
      simp only [List.mem_cons, List.mem_singleton, List.not_mem_nil, or_false] at hf
      rcases hf with rfl | rfl | rfl <;> norm_num)
    (mainPendulum (CMath.mk Real.sin Real.cos Real.sqrt (fun y x => Complex.arg ⟨x, y⟩) Real.pi))
    7 (le_of_eq hfl)
  have h1 := h.1
  rw [hfl] at h1
  simp only [mainInit]
  rw [h1]
  rfl

/-! ## What a frame draws -/

/-- After one or more calls of `updatePhysics` the stored geometry is the
position derivation of the state's own angles: bob 1 at
`pivot + (l1 sin a1, l1 cos a1)`, bob 2 at `bob1 + (l2 sin a2, l2 cos a2)`,
line 1 starting at the pivot and line 2 at bob 1. -/
theorem updatePhysics_iterate_geometry (at2 : ℝ → ℝ → ℝ) (s : DoublePendulum ℝ) (dt : ℝ)
    (n : Nat) :
    ((fun d : DoublePendulum ℝ =>
        d.updatePhysics (CMath.mk Real.sin Real.cos Real.sqrt at2 Real.pi) dt)^[n + 1]
        s).p1.bob.position
      = ⟨((fun d : DoublePendulum ℝ =>
              d.updatePhysics (CMath.mk Real.sin Real.cos Real.sqrt at2 Real.pi) dt)^[n + 1]
              s).p1.pivot.x
            + ((fun d : DoublePendulum ℝ =>
              d.updatePhysics (CMath.mk Real.sin Real.cos Real.sqrt at2 Real.pi) dt)^[n + 1]
              s).p1.length
              * Real.sin ((fun d : DoublePendulum ℝ =>
                  d.updatePhysics (CMath.mk Real.sin Real.cos Real.sqrt at2 Real.pi)
                    dt)^[n + 1] s).p1.angle,
         ((fun d : DoublePendulum ℝ =>
              d.updatePhysics (CMath.mk Real.sin Real.cos Real.sqrt at2 Real.pi) dt)^[n + 1]
              s).p1.pivot.y
            + ((fun d : DoublePendulum ℝ =>
              d.updatePhysics (CMath.mk Real.sin Real.cos Real.sqrt at2 Real.pi) dt)^[n + 1]
              s).p1.length
              * Real.cos ((fun d : DoublePendulum ℝ =>
                  d.updatePhysics (CMath.mk Real.sin Real.cos Real.sqrt at2 Real.pi)
                    dt)^[n + 1] s).p1.angle⟩
    ∧ ((fun d : DoublePendulum ℝ =>
        d.updatePhysics (CMath.mk Real.sin Real.cos Real.sqrt at2 Real.pi) dt)^[n + 1]
        s).p2.bob.position
      = ⟨((fun d : DoublePendulum ℝ =>
              d.updatePhysics (CMath.mk Real.sin Real.cos Real.sqrt at2 Real.pi) dt)^[n + 1]
              s).p1.bob.position.x
            + ((fun d : DoublePendulum ℝ =>
              d.updatePhysics (CMath.mk Real.sin Real.cos Real.sqrt at2 Real.pi) dt)^[n + 1]
              s).p2.length
              * Real.sin ((fun d : DoublePendulum ℝ =>
                  d.updatePhysics (CMath.mk Real.sin Real.cos Real.sqrt at2 Real.pi)
                    dt)^[n + 1] s).p2.angle,
         ((fun d : DoublePendulum ℝ =>
              d.updatePhysics (CMath.mk Real.sin Real.cos Real.sqrt at2 Real.pi) dt)^[n + 1]
              s).p1.bob.position.y
            + ((fun d : DoublePendulum ℝ =>
              d.updatePhysics (CMath.mk Real.sin Real.cos Real.sqrt at2 Real.pi) dt)^[n + 1]
              s).p2.length
              * Real.cos ((fun d : DoublePendulum ℝ =>
                  d.updatePhysics (CMath.mk Real.sin Real.cos Real.sqrt at2 Real.pi)
                    dt)^[n + 1] s).p2.angle⟩
    ∧ ((fun d : DoublePendulum ℝ =>
        d.updatePhysics (CMath.mk Real.sin Real.cos Real.sqrt at2 Real.pi) dt)^[n + 1]
        s).p1.line.position
      = ((fun d : DoublePendulum ℝ =>
          d.updatePhysics (CMath.mk Real.sin Real.cos Real.sqrt at2 Real.pi) dt)^[n + 1]
          s).p1.pivot
    ∧ ((fun d : DoublePendulum ℝ =>
        d.updatePhysics (CMath.mk Real.sin Real.cos Real.sqrt at2 Real.pi) dt)^[n + 1]
        s).p2.line.position
      = ((fun d : DoublePendulum ℝ =>
          d.updatePhysics (CMath.mk Real.sin Real.cos Real.sqrt at2 Real.pi) dt)^[n + 1]
          s).p1.bob.position := by
  rw [Function.iterate_succ_apply']
  refine ⟨rfl, ?_, rfl, rfl⟩
  simp only [DoublePendulum.updatePhysics, Vector2f.mk.injEq]
  constructor <;> ring

/-- C7 fails at zero calls.  `main` constructs its pendulum and, when the first
frame time is below `physicsDt` (here `1/1000 < 1/240`), draws it before any
call of `updatePhysics`: both bobs and both lines are drawn at `(0, 0)`, where
the constructor left them, while the position derivation of the state puts
bob 1 at `(640, 300)` and line 1 at the pivot `(500, 300)`. -/
theorem first_frame_draws_unplaced_geometry :
    frame (CMath.mk Real.sin Real.cos Real.sqrt (fun y x => Complex.arg ⟨x, y⟩) Real.pi)
        physicsDt 1
        (mainInit (CMath.mk Real.sin Real.cos Real.sqrt (fun y x => Complex.arg ⟨x, y⟩) Real.pi))
        (1 / 1000)
      = some
        { doublePendulum := mainPendulum
            (CMath.mk Real.sin Real.cos Real.sqrt (fun y x => Complex.arg ⟨x, y⟩) Real.pi)
          physicsAccumulator := 0 + 1 / 1000
          steps := 0 }
    ∧ (frameDrawn (CMath.mk Real.sin Real.cos Real.sqrt (fun y x => Complex.arg ⟨x, y⟩) Real.pi)
        physicsDt 1
        (mainInit (CMath.mk Real.sin Real.cos Real.sqrt (fun y x => Complex.arg ⟨x, y⟩) Real.pi))
        (1 / 1000)).map (fun shapes => shapes.map (fun lb => (lb.1.position, lb.2.position)))
      = some [(⟨0, 0⟩, ⟨0, 0⟩), (⟨0, 0⟩, ⟨0, 0⟩)]
    ∧ (mainPendulum (CMath.mk Real.sin Real.cos Real.sqrt
          (fun y x => Complex.arg ⟨x, y⟩) Real.pi)).p1.pivot = ⟨500, 300⟩
    ∧ ((mainPendulum (CMath.mk Real.sin Real.cos Real.sqrt
          (fun y x => Complex.arg ⟨x, y⟩) Real.pi)).p1.pivot.x
        + (mainPendulum (CMath.mk Real.sin Real.cos Real.sqrt
          (fun y x => Complex.arg ⟨x, y⟩) Real.pi)).p1.length
          * Real.sin (mainPendulum (CMath.mk Real.sin Real.cos Real.sqrt
              (fun y x => Complex.arg ⟨x, y⟩) Real.pi)).p1.angle = 640
      ∧ (mainPendulum (CMath.mk Real.sin Real.cos Real.sqrt
          (fun y x => Complex.arg ⟨x, y⟩) Real.pi)).p1.pivot.y
        + (mainPendulum (CMath.mk Real.sin Real.cos Real.sqrt
          (fun y x => Complex.arg ⟨x, y⟩) Real.pi)).p1.length
          * Real.cos (mainPendulum (CMath.mk Real.sin Real.cos Real.sqrt
              (fun y x => Complex.arg ⟨x, y⟩) Real.pi)).p1.angle = 300)
    ∧ (mainPendulum (CMath.mk Real.sin Real.cos Real.sqrt
          (fun y x => Complex.arg ⟨x, y⟩) Real.pi)).p1.bob.position = ⟨0, 0⟩
    ∧ (mainPendulum (CMath.mk Real.sin Real.cos Real.sqrt
          (fun y x => Complex.arg ⟨x, y⟩) Real.pi)).p1.line.position
        ≠ (mainPendulum (CMath.mk Real.sin Real.cos Real.sqrt
          (fun y x => Complex.arg ⟨x, y⟩) Real.pi)).p1.pivot := by
  have hlt : ¬ ((0 : ℝ) + 1 / 1000 ≥ physicsDt) := by norm_num [physicsDt]
  have hframe : frame
      (CMath.mk Real.sin Real.cos Real.sqrt (fun y x => Complex.arg ⟨x, y⟩) Real.pi)
      physicsDt 1
      (mainInit (CMath.mk Real.sin Real.cos Real.sqrt (fun y x => Complex.arg ⟨x, y⟩) Real.pi))
      (1 / 1000)
      = some
        { doublePendulum := mainPendulum
            (CMath.mk Real.sin Real.cos Real.sqrt (fun y x => Complex.arg ⟨x, y⟩) Real.pi)
          physicsAccumulator := 0 + 1 / 1000
          steps := 0 } := by
    simp only [frame, mainInit, physicsLoop, if_neg hlt]
  refine ⟨hframe, ?_, rfl, ⟨?_, ?_⟩, rfl, ?_⟩
  · rw [frameDrawn, hframe]
    rfl
  · norm_num [mainPendulum, DoublePendulum.new, Pendulum.new]
  · norm_num [mainPendulum, DoublePendulum.new, Pendulum.new]
  · simp [mainPendulum, DoublePendulum.new, Pendulum.new, RectangleShape.default]

end PendulumProject
